import Mathlib

/-!
Verification of the syslog-ng value-pairs projection engine

A shallow embedding of `lib/value-pairs.c`: the scope/pattern selector and
merger (`value_pairs_foreach_sorted`), the key-transform chain, the SAX-style
walker (`value_pairs_walk`), and the command-line builder
(`value_pairs_new_from_cmdline`), together with theorems about them.

Collaborator functions that live outside this file's source (the message
store, macro registry, template engine, GLib's option parser and scratch
buffers) are modelled as opaque data carried by the message / environment
structures, as the specification treats them as external interfaces.

Machine integers are modelled as `Nat` (the scope mask is only ever built
from flag constants below `0x80`, so no overflow arises); C strings are
modelled as `String` / `List Char`, with reads past the end of a string
returning the NUL character as in C.
-/

/-- Scope bit `VPS_NV_PAIRS` (0x01). -/
def VPS_NV_PAIRS : Nat := 0x01
/-- Scope bit `VPS_DOT_NV_PAIRS` (0x02). -/
def VPS_DOT_NV_PAIRS : Nat := 0x02
/-- Scope bit `VPS_RFC3164` (0x04). -/
def VPS_RFC3164 : Nat := 0x04
/-- Scope bit `VPS_RFC5424` (0x08). -/
def VPS_RFC5424 : Nat := 0x08
/-- Scope bit `VPS_ALL_MACROS` (0x10). -/
def VPS_ALL_MACROS : Nat := 0x10
/-- Scope bit `VPS_SELECTED_MACROS` (0x20). -/
def VPS_SELECTED_MACROS : Nat := 0x20
/-- Scope bit `VPS_SDATA` (0x40). -/
def VPS_SDATA : Nat := 0x40
/-- Scope bit `VPS_EVERYTHING` (0x7f). -/
def VPS_EVERYTHING : Nat := 0x7f

/-- Type hints attached to rendered values (`type-hinting.h` collaborator):
`TYPE_HINT_STRING` plus the tags produced by the template type parser,
modelled as an opaque string tag. -/
inductive TypeHint where
  | thString
  | thTag (tag : String)
deriving DecidableEq

/-- Model of `SBTHGString`: a scratch buffer holding a rendered value and its type
hint; `value` models `sb_th_gstring_string(sb)->str`. -/
structure SBTHGString where
  type_hint : TypeHint
  value : String
deriving DecidableEq

/-- One dynamic name-value pair of a message's payload, as enumerated by the
`nv_table_foreach` collaborator.  `sdata` records the value of the
`log_msg_is_handle_sdata(handle)` collaborator predicate for this handle. -/
structure NVEntry where
  handle : Nat
  name : String
  value : String
  sdata : Bool

/-- A log message together with its collaborator interfaces:
`payload` is the NV-pair enumeration order of `nv_table_foreach`,
`macroExpand` models `log_macro_expand` (macro id to rendered bytes;
template options, time-zone mode and sequence number are absorbed into the
environment since the core treats them opaquely), and `getValue` models
`log_msg_get_value` (handle to bytes). -/
structure LogMessage where
  payload : List NVEntry
  macroExpand : Nat → String
  getValue : Nat → String

/-- A compiled template (`LogTemplate` of the template-engine collaborator):
a type hint plus an opaque rendering function of the message. -/
structure LogTemplate where
  type_hint : TypeHint
  render : LogMessage → String

/-- Model of `VPPatternSpec`: a glob pattern with an include/exclude flag.  The
compiled `GPatternSpec` is kept as its pattern string; `inc` models the
`include` member (a Lean keyword). -/
structure VPPatternSpec where
  pattern : String
  inc : Bool

/-- Fuel-indexed glob matcher: GLib `g_pattern_match_string` wildcard
semantics, `*` matches any run, `?` one character, all else literal.  Each
step shortens `pattern.length + input.length`, so fuel
`pattern.length + input.length + 1` never runs out (fuel keeps the
definition structurally recursive and kernel-computable). -/
def g_pattern_match_chars : Nat → List Char → List Char → Bool
  | 0, _, _ => false
  | _ + 1, [], [] => true
  | _ + 1, [], _ :: _ => false
  | f + 1, '*' :: ps, s =>
      g_pattern_match_chars f ps s ||
        (match s with
          | [] => false
          | _ :: s2 => g_pattern_match_chars f ('*' :: ps) s2)
  | f + 1, '?' :: ps, _ :: s2 => g_pattern_match_chars f ps s2
  | _ + 1, '?' :: _, [] => false
  | f + 1, p :: ps, c :: s2 => p == c && g_pattern_match_chars f ps s2
  | _ + 1, _ :: _, [] => false

/-- Model of `vp_pattern_spec_eval`: match one pattern against a name. -/
def vp_pattern_spec_eval (p : VPPatternSpec) (input : String) : Bool :=
  g_pattern_match_chars (p.pattern.length + input.length + 1) p.pattern.data input.data

/-- Model of `VPPairConf`: one explicit `(name, template)` pair. -/
structure VPPairConf where
  name : String
  template : LogTemplate

/-- Modelled from the spec: a single key-rewrite transform step of
`vptransform.c` (not under `src/`): `Shift(n)` drops the first `n` bytes
(clamped), `AddPrefix(s)` prepends `s`, `ReplacePrefix(from, to)` replaces
a leading `from` with `to` and otherwise leaves the key unchanged. -/
inductive VPTransform where
  | shift (n : Nat)
  | addPrefix (s : String)
  | replacePrefix (fromS toS : String)

/-- Modelled from the spec: apply one transform step (`vptransform.c` is not
under `src/`). -/
def vp_transform_step_apply : VPTransform → String → String
  | .shift n, key => String.mk (key.data.drop n)
  | .addPrefix s, key => s ++ key
  | .replacePrefix fromS toS, key =>
      if fromS.data.isPrefixOf key.data then
        toS ++ String.mk (key.data.drop fromS.length)
      else key

/-- Model of `ValuePairsTransformSet`: an ordered list of transform steps labelled by
the base key it was created from (`value_pairs_transform_set_new(key)`). -/
structure ValuePairsTransformSet where
  key : String
  transforms : List VPTransform

/-- Modelled from the spec: `value_pairs_transform_set_apply`
(`vptransform.c` is not under `src/`) applies the set's steps in order. -/
def value_pairs_transform_set_apply (t : ValuePairsTransformSet) (key : String) : String :=
  t.transforms.foldl (fun k tr => vp_transform_step_apply tr k) key

/-- Model of `struct _ValuePairs`: patterns (ordered), explicit pairs, transform
sets (ordered) and the 32-bit scope mask.  `patterns_size` is
`patterns.length`; the atomic reference counter is dropped (pure model). -/
structure ValuePairs where
  patterns : List VPPatternSpec
  vpairs : List VPPairConf
  transforms : List ValuePairsTransformSet
  scopes : Nat

/-- Model of `value_pairs_new`: fresh empty configuration (the one-shot static table
initialization is modelled separately by `value_pairs_tables_init`). -/
def value_pairs_new : ValuePairs :=
  { patterns := [], vpairs := [], transforms := [], scopes := 0 }

/-- Model of `vp_transform_apply`: run every transform set, in order, over a key. -/
def vp_transform_apply (vp : ValuePairs) (key : String) : String :=
  vp.transforms.foldl (fun k t => value_pairs_transform_set_apply t k) key

/-- Model of `VPT_MACRO` / `VPT_NVPAIR`. -/
inductive VPType where
  | VPT_MACRO
  | VPT_NVPAIR

/-- Model of `ValuePairSpec`: one entry of a built-in table, already resolved to a
macro id or an NV handle. -/
structure ValuePairSpec where
  name : String
  type : VPType
  id : Nat

/-- The macro registry collaborator: `log_macro_lookup` (0 means miss, as in
the C `if ((id = log_macro_lookup(...)))` test) and
`log_msg_get_value_handle`. -/
structure MacroRegistry where
  log_macro_lookup : String → Nat
  log_msg_get_value_handle : String → Nat

/-- The names of the static `rfc3164` table. -/
def rfc3164_names : List String :=
  ["FACILITY", "PRIORITY", "HOST", "PROGRAM", "PID", "MESSAGE", "DATE"]

/-- The names of the static `rfc5424` table. -/
def rfc5424_names : List String := ["MSGID"]

/-- The names of the static `selected_macros` table. -/
def selected_macros_names : List String := ["TAGS", "SOURCEIP", "SEQNUM"]

/-- Model of `value_pairs_init_set`: resolve each table name through the registry,
macro lookup first, message-value handle on miss. -/
def value_pairs_init_set (reg : MacroRegistry) (names : List String) : List ValuePairSpec :=
  names.map fun n =>
    let id := reg.log_macro_lookup n
    if id ≠ 0 then { name := n, type := .VPT_MACRO, id := id }
    else { name := n, type := .VPT_NVPAIR, id := reg.log_msg_get_value_handle n }

/-- The resolved built-in tables (the process-wide statics of
`value-pairs.c` after their one-shot initialization). -/
structure VPTables where
  rfc3164 : List ValuePairSpec
  rfc5424 : List ValuePairSpec
  selected_macros : List ValuePairSpec
  all_macros : List ValuePairSpec

/-- The one-shot table initialization performed by `value_pairs_new`:
resolve the three static tables and build `all_macros` from the registry's
macro list (`macros[i].name / macros[i].id`). -/
def value_pairs_tables_init (reg : MacroRegistry) (macros : List (String × Nat)) : VPTables :=
  { rfc3164 := value_pairs_init_set reg rfc3164_names
    rfc5424 := value_pairs_init_set reg rfc5424_names
    selected_macros := value_pairs_init_set reg selected_macros_names
    all_macros := macros.map fun m => { name := m.1, type := .VPT_MACRO, id := m.2 } }

/-- Model of `strcmp`, on character lists: sign of the first differing character. -/
def strcmpList : List Char → List Char → Ordering
  | [], [] => .eq
  | [], _ :: _ => .lt
  | _ :: _, [] => .gt
  | a :: as, b :: bs => if a = b then strcmpList as bs else if a < b then .lt else .gt

/-- Model of `strcmp` on strings, the default comparator of `value_pairs_foreach`. -/
def strcmp (a b : String) : Ordering := strcmpList a.data b.data

/-- Model of `vp_walk_cmp`: the walker's reverse comparator, `strcmp(s2, s1)`. -/
def vp_walk_cmp (s1 s2 : String) : Ordering := strcmp s2 s1

/-- The `GTree` scope set: an ordered association list from final key to
hinted value. -/
abbrev VPTree : Type := List (String × SBTHGString)

/-- Model of `g_tree_insert` with a comparator: replace the value when an equal key
is found, otherwise keep the comparator order (the balanced-tree layout is
irrelevant to the map semantics). -/
def treeInsert (cmp : String → String → Ordering) (k : String) (v : SBTHGString) :
    VPTree → VPTree
  | [] => [(k, v)]
  | (k2, v2) :: t =>
      match cmp k k2 with
      | .lt => (k, v) :: (k2, v2) :: t
      | .eq => (k, v) :: t
      | .gt => (k2, v2) :: treeInsert cmp k v t

/-- Model of `g_tree_lookup` with a comparator. -/
def treeLookup (cmp : String → String → Ordering) (k : String) : VPTree → Option SBTHGString
  | [] => none
  | (k2, v) :: t => if cmp k k2 = .eq then some v else treeLookup cmp k t

/-- The pattern loop shared by `vp_msg_nvpairs_foreach` and
`vp_find_in_set`: run over the patterns in order, overwriting the inclusion
with the include flag of every pattern that matches. -/
def vp_patterns_eval (patterns : List VPPatternSpec) (name : String) (seed : Bool) : Bool :=
  patterns.foldl (fun inc p => if vp_pattern_spec_eval p name then p.inc else inc) seed

/-- Model of `vp_find_in_set`: evaluate the pattern list over `name` seeded with
`exclude` (`gboolean included = exclude;`). -/
def vp_find_in_set (vp : ValuePairs) (name : String) (exclude : Bool) : Bool :=
  vp_patterns_eval vp.patterns name exclude

/-- The seed inclusion computed by `vp_msg_nvpairs_foreach` (lines 265-267):
`(name[0] == '.' && (scopes & VPS_DOT_NV_PAIRS)) || (name[0] != '.' &&
(scopes & VPS_NV_PAIRS)) || (is_sdata(handle) && (scopes & (VPS_SDATA +
VPS_RFC5424)))`; `name[0]` of an empty C string reads NUL. -/
def vp_msg_nv_inc (vp : ValuePairs) (e : NVEntry) : Bool :=
  (e.name.data.headD (Char.ofNat 0) == '.' && (vp.scopes &&& VPS_DOT_NV_PAIRS != 0)) ||
  (e.name.data.headD (Char.ofNat 0) != '.' && (vp.scopes &&& VPS_NV_PAIRS != 0)) ||
  (e.sdata && (vp.scopes &&& (VPS_SDATA + VPS_RFC5424) != 0))

/-- Model of `vp_msg_nvpairs_foreach`: one step over a message NV pair — skip empty
values, seed inclusion from the scopes, run the pattern loop, and insert the
value (hint `TYPE_HINT_STRING`) under the transformed name. -/
def vp_msg_nvpairs_foreach (vp : ValuePairs) (cmp : String → String → Ordering)
    (scope_set : VPTree) (e : NVEntry) : VPTree :=
  if e.value.length = 0 then scope_set
  else
    let inc := vp_patterns_eval vp.patterns e.name (vp_msg_nv_inc vp e)
    if inc then
      treeInsert cmp (vp_transform_apply vp e.name) ⟨TypeHint.thString, e.value⟩ scope_set
    else scope_set

/-- The rendering of one built-in table entry: `log_macro_expand` for
`VPT_MACRO`, `log_msg_get_value` for `VPT_NVPAIR`. -/
def vp_spec_render (msg : LogMessage) (s : ValuePairSpec) : String :=
  match s.type with
  | .VPT_MACRO => msg.macroExpand s.id
  | .VPT_NVPAIR => msg.getValue s.id

/-- Model of `vp_merge_other_set`: for each table entry, consult the pattern list
seeded with `exclude`, render, drop empty renderings, insert under the
transformed name. -/
def vp_merge_other_set (vp : ValuePairs) (msg : LogMessage)
    (cmp : String → String → Ordering) (set : List ValuePairSpec) (dest : VPTree)
    (exclude : Bool) : VPTree :=
  set.foldl
    (fun dest s =>
      if vp_find_in_set vp s.name exclude then
        let v := vp_spec_render msg s
        if v.length = 0 then dest
        else treeInsert cmp (vp_transform_apply vp s.name) ⟨TypeHint.thString, v⟩ dest
      else dest)
    dest

/-- Model of `vp_merge_macros`: merge the full `all_macros` table with
`exclude = FALSE`. -/
def vp_merge_macros (tables : VPTables) (vp : ValuePairs) (msg : LogMessage)
    (cmp : String → String → Ordering) (dest : VPTree) : VPTree :=
  vp_merge_other_set vp msg cmp tables.all_macros dest false

/-- Model of `vp_merge_set`: merge a built-in table with `exclude = TRUE`. -/
def vp_merge_set (vp : ValuePairs) (msg : LogMessage)
    (cmp : String → String → Ordering) (set : List ValuePairSpec) (dest : VPTree) : VPTree :=
  vp_merge_other_set vp msg cmp set dest true

/-- Model of `vp_pairs_foreach`: one explicit pair — render its template (the hint
is the template's), drop empty renderings, insert under the transformed
name. -/
def vp_pairs_foreach (vp : ValuePairs) (msg : LogMessage)
    (cmp : String → String → Ordering) (scope_set : VPTree) (vpc : VPPairConf) : VPTree :=
  let rendered := vpc.template.render msg
  if rendered.length = 0 then scope_set
  else
    treeInsert cmp (vp_transform_apply vp vpc.name)
      ⟨vpc.template.type_hint, rendered⟩ scope_set

/-- The guard of the message NV-pair phase in `value_pairs_foreach_sorted`
(lines 400-401): `vp->scopes & (VPS_NV_PAIRS + VPS_DOT_NV_PAIRS + VPS_SDATA
+ VPS_RFC5424) || vp->patterns_size > 0`. -/
def vp_nv_phase_guard (vp : ValuePairs) : Bool :=
  (vp.scopes &&& (VPS_NV_PAIRS + VPS_DOT_NV_PAIRS + VPS_SDATA + VPS_RFC5424) != 0) ||
  (vp.patterns.length != 0)

/-- Phases 1-6 of `value_pairs_foreach_sorted`: message NV pairs,
pattern-only macro merge, RFC3164, RFC5424, selected macros, all macros. -/
def vp_build_base (tables : VPTables) (vp : ValuePairs) (msg : LogMessage)
    (cmp : String → String → Ordering) : VPTree :=
  let t0 : VPTree := []
  let t1 := if vp_nv_phase_guard vp then
      msg.payload.foldl (vp_msg_nvpairs_foreach vp cmp) t0
    else t0
  let t2 := if 0 < vp.patterns.length then vp_merge_macros tables vp msg cmp t1 else t1
  let t3 := if vp.scopes &&& (VPS_RFC3164 + VPS_RFC5424 + VPS_SELECTED_MACROS) ≠ 0 then
      vp_merge_set vp msg cmp tables.rfc3164 t2
    else t2
  let t4 := if vp.scopes &&& VPS_RFC5424 ≠ 0 then
      vp_merge_set vp msg cmp tables.rfc5424 t3
    else t3
  let t5 := if vp.scopes &&& VPS_SELECTED_MACROS ≠ 0 then
      vp_merge_set vp msg cmp tables.selected_macros t4
    else t4
  if vp.scopes &&& VPS_ALL_MACROS ≠ 0 then
    vp_merge_set vp msg cmp tables.all_macros t5
  else t5

/-- The complete scope set built by `value_pairs_foreach_sorted`: phases 1-6
followed by the explicit pairs, which run last. -/
def vp_build_scope_set (tables : VPTables) (vp : ValuePairs) (msg : LogMessage)
    (cmp : String → String → Ordering) : VPTree :=
  vp.vpairs.foldl (vp_pairs_foreach vp msg cmp) (vp_build_base tables vp msg cmp)

/-- Model of `g_tree_foreach` through `vp_foreach_helper`: invoke the consumer
callback (`TRUE` return signals failure, `*r &= !func(...)`) over the
entries in comparator order, stopping at the first failure.  Returns the
final accumulator and the list of entries on which the callback was
actually invoked. -/
def g_tree_foreach_helper (func : String → TypeHint → String → Bool) :
    VPTree → Bool × VPTree
  | [] => (true, [])
  | kv :: rest =>
      if func kv.1 kv.2.type_hint kv.2.value then (false, [kv])
      else
        let r := g_tree_foreach_helper func rest
        (r.1, kv :: r.2)

/-- Model of `value_pairs_foreach_sorted`: build the scope set and run the callback
over it, returning the ANDed success accumulator. -/
def value_pairs_foreach_sorted (tables : VPTables) (vp : ValuePairs)
    (func : String → TypeHint → String → Bool)
    (cmp : String → String → Ordering) (msg : LogMessage) : Bool :=
  (g_tree_foreach_helper func (vp_build_scope_set tables vp msg cmp)).1

/-- Model of `value_pairs_foreach`: the flat traversal, with the `strcmp`
comparator. -/
def value_pairs_foreach (tables : VPTables) (vp : ValuePairs)
    (func : String → TypeHint → String → Bool) (msg : LogMessage) : Bool :=
  value_pairs_foreach_sorted tables vp func strcmp msg

/-- Read character `i` of a C string: NUL past the end. -/
def strCharAt (s : List Char) (i : Nat) : Char :=
  s.getD i (Char.ofNat 0)

/-- Model of `strspn(&name[pos], "0123456789")`: length of the digit run at `pos`. -/
def strspnDigits (name : List Char) (pos : Nat) : Nat :=
  ((name.drop pos).takeWhile Char.isDigit).length

/-- Model of `strcspn(&name[pos], "@.")`: characters at `pos` before the first `@`
or `.` (or the end). -/
def strcspnAD (name : List Char) (pos : Nat) : Nat :=
  ((name.drop pos).takeWhile (fun c => !(c == '@' || c == '.'))).length

/-- Model of `vp_walker_skip_sdata_enterprise_id`: starting at the `@` (or a
continuation `.`), step over it, skip the digit run, and continue past a
`.` only while the character after it is another digit.  Each iteration
advances `pos` by at least one and a continuation needs a `.` inside the
name, so fuel `name.length + 1` never runs out. -/
def vp_walker_skip_sdata_enterprise_id (name : List Char) : Nat → Nat → Nat
  | 0, pos => pos
  | fuel + 1, pos =>
      let p := pos + 1 + strspnDigits name (pos + 1)
      if strCharAt name p == '.' && (strCharAt name (p + 1)).isDigit then
        vp_walker_skip_sdata_enterprise_id name fuel p
      else p

/-- The loop body of `vp_walker_split_name_to_tokens`: cut the name at `.`
boundaries, treating a whole `foo@1.2.3` enterprise-id fragment as part of
one token.  A do-while loop; every iteration strictly advances `pos`, so
fuel `name.length + 1` never runs out. -/
def vp_walker_split_go (name : List Char) : Nat → Nat → List String → List String
  | 0, _, acc => acc
  | fuel + 1, pos, acc =>
      let pos1 := pos + strcspnAD name pos
      let pos2 := if strCharAt name pos1 == '@' then
          vp_walker_skip_sdata_enterprise_id name (name.length + 1) pos1
        else pos1
      if strCharAt name pos2 == '.' || pos2 = name.length then
        let acc2 := acc ++ [String.mk ((name.drop pos).take (pos2 - pos))]
        if pos2 + 1 < name.length then vp_walker_split_go name fuel (pos2 + 1) acc2
        else acc2
      else
        if pos2 < name.length then vp_walker_split_go name fuel pos2 acc
        else acc

/-- Model of `vp_walker_split_name_to_tokens`: tokenize a transformed key into the
path components the walker opens containers for. -/
def vp_walker_split_name_to_tokens (name : String) : List String :=
  vp_walker_split_go name.data (name.length + 1) 0 []

/-- Model of `vp_walker_name_combine_prefix`: join `tokens[0..u-1]`, each followed
by a dot, then append `tokens[u]`. -/
def vp_walker_name_combine (tokens : List String) (u : Nat) : String :=
  ((tokens.take u).foldl (fun s t => s ++ t ++ ".") "") ++ tokens.getD u ""

/-- One open container of the walker stack (`vp_walk_stack_data_t`).  The
cached `prefix_len` is `pfx.length`; the consumer's opaque `data` slot
carries no information the event trace does not already identify, so it is
dropped from the model. -/
structure VpWalkFrame where
  key : String
  pfx : String
deriving DecidableEq

/-- A SAX event emitted to the consumer: container open, container close,
or a leaf value, each carrying the frame's key, its dotted prefix, and the
parent's prefix (`none` models the NULL arguments of the C callbacks). -/
inductive WEvent where
  | objStart (key pfx parentPfx : Option String)
  | objEnd (key pfx parentPfx : Option String)
  | procValue (key : String) (pfx : Option String) (hint : TypeHint) (v : String)
deriving DecidableEq

/-- Model of `vp_walker_stack_unwind_containers_until`: pop frames, emitting
`obj_end` with the next frame down as parent, until the stack empties or
the top frame's prefix passes `strncmp(name, t->prefix, t->prefix_len) == 0`
— a byte-level prefix test.  `name = none` models the NULL name of
`vp_walker_stack_unwind_all_containers`.  Returns the emitted events and
the remaining stack (top first). -/
def vp_walker_stack_unwind_containers_until :
    List VpWalkFrame → Option String → List WEvent × List VpWalkFrame
  | [], _ => ([], [])
  | t :: rest, name =>
      if (match name with
          | some n => t.pfx.data.isPrefixOf n.data
          | none => false) then
        ([], t :: rest)
      else
        let res := vp_walker_stack_unwind_containers_until rest name
        (WEvent.objEnd (some t.key) (some t.pfx) (rest.head?.map (·.pfx)) :: res.1, res.2)

/-- The container-opening loop of `vp_walker_start_containers_for_name`
over an explicit index list: for each index `i`, push a frame for token
`i` with prefix `tokens[0..=i]` and emit `obj_start` with the previous top
as parent. -/
def vp_walker_start_containers_go (tokens : List String) :
    List Nat → List VpWalkFrame → List WEvent × List VpWalkFrame
  | [], stack => ([], stack)
  | i :: is, stack =>
      let key := tokens.getD i ""
      let pfx := vp_walker_name_combine tokens i
      let ev := WEvent.objStart (some key) (some pfx) (stack.head?.map (·.pfx))
      let res := vp_walker_start_containers_go tokens is (⟨key, pfx⟩ :: stack)
      (ev :: res.1, res.2)

/-- Model of `vp_walker_start_containers_for_name`, container part: open frames for
token indices `stack.height .. tokens.length - 2`. -/
def vp_walker_start_containers (stack : List VpWalkFrame) (tokens : List String) :
    List WEvent × List VpWalkFrame :=
  vp_walker_start_containers_go tokens
    (List.range' stack.length (tokens.length - 1 - stack.length)) stack

/-- Model of `value_pairs_walker`: the per-entry callback of the walk — unwind
stale containers, open the new ones, then hand the last token to
`process_value` with the top frame as parent.  The consumer's
`process_value` return (`pv`, `true` = failure as in `vp_foreach_helper`)
becomes the entry's result. -/
def value_pairs_walker (pv : String → Option String → TypeHint → String → Bool)
    (stack : List VpWalkFrame) (name : String) (hint : TypeHint) (value : String) :
    List WEvent × List VpWalkFrame × Bool :=
  let u := vp_walker_stack_unwind_containers_until stack (some name)
  let tokens := vp_walker_split_name_to_tokens name
  let s := vp_walker_start_containers u.2 tokens
  let key := (tokens.getLast?).getD ""
  let parentPfx := s.2.head?.map (·.pfx)
  (u.1 ++ s.1 ++ [WEvent.procValue key parentPfx hint value],
   s.2,
   pv key parentPfx hint value)

/-- The tree traversal of the walk (`g_tree_foreach` applied to
`value_pairs_walker`): process the sorted entries in order, stopping after
the first entry whose `process_value` signalled failure.  Returns the
events, the final stack and the ANDed accumulator. -/
def value_pairs_walk_go (pv : String → Option String → TypeHint → String → Bool) :
    List VpWalkFrame → VPTree → List WEvent × List VpWalkFrame × Bool
  | stack, [] => ([], stack, true)
  | stack, (n, hv) :: rest =>
      let w := value_pairs_walker pv stack n hv.type_hint hv.value
      if w.2.2 then (w.1, w.2.1, false)
      else
        let r := value_pairs_walk_go pv w.2.1 rest
        (w.1 ++ r.1, r.2.1, r.2.2)

/-- Model of `value_pairs_walk`: bracket the traversal with the outer
`obj_start(NULL,...)` / `obj_end(NULL,...)` pair, run the sorted entries
through `value_pairs_walker` (comparator `vp_walk_cmp`, i.e. reverse
lexicographic), and unwind every container still open at the end. -/
def value_pairs_walk (tables : VPTables) (vp : ValuePairs) (msg : LogMessage)
    (pv : String → Option String → TypeHint → String → Bool) : List WEvent × Bool :=
  let g := value_pairs_walk_go pv [] (vp_build_scope_set tables vp msg vp_walk_cmp)
  let u := vp_walker_stack_unwind_containers_until g.2.1 none
  (WEvent.objStart none none none :: ((g.1 ++ u.1) ++ [WEvent.objEnd none none none]),
   g.2.2)

/-- Model of `value_pairs_add_glob_pattern`: append one compiled pattern. -/
def value_pairs_add_glob_pattern (vp : ValuePairs) (pattern : String) (inc : Bool) :
    ValuePairs :=
  { vp with patterns := vp.patterns ++ [⟨pattern, inc⟩] }

/-- Model of `value_pairs_add_pair`: append one explicit pair. -/
def value_pairs_add_pair (vp : ValuePairs) (key : String) (template : LogTemplate) :
    ValuePairs :=
  { vp with vpairs := vp.vpairs ++ [⟨key, template⟩] }

/-- Model of `value_pairs_add_transforms`: append one transform set. -/
def value_pairs_add_transforms (vp : ValuePairs) (vpts : ValuePairsTransformSet) :
    ValuePairs :=
  { vp with transforms := vp.transforms ++ [vpts] }

/-- The `value_pair_scope` flag table: scope name to scope bits. -/
def value_pair_scope : List (String × Nat) :=
  [("nv-pairs", VPS_NV_PAIRS),
   ("dot-nv-pairs", VPS_DOT_NV_PAIRS),
   ("all-nv-pairs", VPS_NV_PAIRS + VPS_DOT_NV_PAIRS),
   ("rfc3164", VPS_RFC3164),
   ("core", VPS_RFC3164),
   ("base", VPS_RFC3164),
   ("rfc5424", VPS_RFC5424),
   ("syslog-proto", VPS_RFC5424),
   ("all-macros", VPS_ALL_MACROS),
   ("selected-macros", VPS_SELECTED_MACROS),
   ("sdata", VPS_SDATA),
   ("everything", VPS_EVERYTHING)]

/-- Model of `value_pairs_add_scope`.  Modelled from the spec for the part outside
`src/`: `cfg_process_flag` (`cfg-parser.c`) looks the name up in the flag
table and fails on a miss; per the spec, the `CFH_SET` application is
treated as bitwise OR into the existing mask. -/
def value_pairs_add_scope (vp : ValuePairs) (scope : String) : Option ValuePairs :=
  match value_pair_scope.find? (fun e => e.1 == scope) with
  | some e => some { vp with scopes := vp.scopes ||| e.2 }
  | none => none

/-- Model of `value_pairs_new_default`: the default configuration used when no
builder arguments are given (`selected-macros`, `nv-pairs`, `sdata`). -/
def value_pairs_new_default : Option ValuePairs := do
  let vp ← value_pairs_add_scope value_pairs_new "selected-macros"
  let vp ← value_pairs_add_scope vp "nv-pairs"
  value_pairs_add_scope vp "sdata"

/-- One builder argument after GLib's option recognition.  Modelled from
the spec for the dispatch itself: `g_option_context_parse` is a GLib
collaborator that hands each recognized option's value (and each
positional argument) to the callbacks registered in
`value_pairs_new_from_cmdline`, in command-line order, stopping at the
first callback failure. -/
inductive VPCmdArg where
  | scope (v : String)
  | exclude (v : String)
  | key (v : String)
  | rekey (v : String)
  | pair (v : String)
  | shiftOpt (v : String)
  | addPrefixOpt (v : String)
  | replacePrefixOpt (v : String)
  | positional (v : String)

/-- The builder state threaded through the callbacks: `args[1]` (the
ValuePairs being built), `args[2]` (the open transform set) and `args[3]`
(the rekey base key). -/
structure VPCmdlineState where
  vp : ValuePairs
  vpts : Option ValuePairsTransformSet
  key : Option String

/-- Model of `vp_cmdline_parse_rekey_finish`: flush the open transform set into the
ValuePairs and clear the rekey context. -/
def vp_cmdline_parse_rekey_finish (st : VPCmdlineState) : VPCmdlineState :=
  { vp := match st.vpts with
      | some vpts => value_pairs_add_transforms st.vp vpts
      | none => st.vp
    vpts := none
    key := none }

/-- Split a character list at every occurrence of `c` (the splitter of
GLib's `g_strsplit` with unlimited tokens). -/
def splitCharList (c : Char) : List Char → List (List Char)
  | [] => [[]]
  | x :: xs =>
      let r := splitCharList c xs
      if x == c then [] :: r
      else
        match r with
        | [] => [[x]]
        | t :: ts => (x :: t) :: ts

/-- Model of `g_strsplit(v, ",", -1)`: comma split; the empty string yields no
tokens. -/
def g_strsplit_commas (v : String) : List String :=
  if v.data = [] then [] else (splitCharList ',' v.data).map String.mk

/-- Model of `g_strsplit(v, "=", 2)`: split at the first `=` into key and rest. -/
def g_strsplit_eq2 (v : String) : String × String :=
  match splitCharList '=' v.data with
  | [] => ("", "")
  | [a] => (String.mk a, "")
  | a :: rest => (String.mk a, String.intercalate "=" (rest.map String.mk))

/-- Model of `vp_cmdline_parse_scope`: flush the rekey context, then add each
comma-separated scope name, failing on the first unknown one. -/
def vp_cmdline_parse_scope (st : VPCmdlineState) (value : String) :
    Option VPCmdlineState :=
  let st1 := vp_cmdline_parse_rekey_finish st
  ((g_strsplit_commas value).foldlM value_pairs_add_scope st1.vp).map
    fun vp => { st1 with vp := vp }

/-- Model of `vp_cmdline_parse_exclude`: flush the rekey context, then add each
comma-separated glob as an exclude pattern. -/
def vp_cmdline_parse_exclude (st : VPCmdlineState) (value : String) : VPCmdlineState :=
  let st1 := vp_cmdline_parse_rekey_finish st
  { st1 with
    vp := (g_strsplit_commas value).foldl
      (fun vp x => value_pairs_add_glob_pattern vp x false) st1.vp }

/-- Model of `vp_cmdline_start_key`: flush the rekey context and open a new one on
the raw argument. -/
def vp_cmdline_start_key (st : VPCmdlineState) (key : String) : VPCmdlineState :=
  { vp_cmdline_parse_rekey_finish st with key := some key }

/-- Model of `vp_cmdline_parse_key`: open a rekey context on the raw argument and
add each comma-separated glob as an include pattern. -/
def vp_cmdline_parse_key (st : VPCmdlineState) (value : String) : VPCmdlineState :=
  let st1 := vp_cmdline_start_key st value
  { st1 with
    vp := (g_strsplit_commas value).foldl
      (fun vp x => value_pairs_add_glob_pattern vp x true) st1.vp }

/-- Model of `value_pairs_parse_type`: recognize an optional `TYPE(VALUE)` wrapper —
an alphanumeric/underscore run whose first character is a letter or `_`,
optional blanks, `(`, and a first `)` that is the final character;
otherwise the whole string is the value with no type. -/
def value_pairs_parse_type (spec : String) : String × Option String :=
  let cs := spec.data
  let sp := (cs.takeWhile (fun c => c.isAlphanum || c == '_')).length
  let sp := sp + ((cs.drop sp).takeWhile (fun c => c == ' ' || c == '\t')).length
  if strCharAt cs sp ≠ '(' ∨
      ¬((strCharAt cs 0).toUpper ≥ 'A' ∧ (strCharAt cs 0).toUpper ≤ 'Z' ∨
        strCharAt cs 0 = '_') then
    (spec, none)
  else
    match (cs.drop sp).indexOf? ')' with
    | none => (spec, none)
    | some i =>
        if sp + i + 1 ≠ cs.length then (spec, none)
        else
          (String.mk ((cs.drop (sp + 1)).take (i - 1)),
           some (String.mk (cs.take sp)))

/-- Model of `log_template_compile` / `log_template_set_type_hint`.  Modelled from
the spec for the collaborators: compilation produces an opaque renderer
(always succeeding in this model, which keeps only the builder's own error
paths), and an absent type tag leaves the `STRING` hint. -/
def log_template_compile_with_hint (v : String) (t : Option String) : LogTemplate :=
  { type_hint := match t with
      | none => TypeHint.thString
      | some tag => TypeHint.thTag tag
    render := fun _ => v }

/-- Model of `vp_cmdline_parse_pair`: flush the rekey context; an argument without
`=` is an error; otherwise split at the first `=`, parse the optional type
wrapper, compile, and add the explicit pair. -/
def vp_cmdline_parse_pair (st : VPCmdlineState) (value : String) :
    Option VPCmdlineState :=
  let st1 := vp_cmdline_parse_rekey_finish st
  if !value.data.contains '=' then none
  else
    let kv := g_strsplit_eq2 value
    let vt := value_pairs_parse_type kv.2
    some { st1 with
      vp := value_pairs_add_pair st1.vp kv.1 (log_template_compile_with_hint vt.1 vt.2) }

/-- Model of `value_pairs_transform_set_new`. -/
def value_pairs_transform_set_new (key : String) : ValuePairsTransformSet :=
  { key := key, transforms := [] }

/-- Model of `value_pairs_transform_set_add_func`.  Modelled from the spec for the
part outside `src/` (`vptransform.c`): append one step to the set. -/
def value_pairs_transform_set_add_func (vpts : ValuePairsTransformSet)
    (tr : VPTransform) : ValuePairsTransformSet :=
  { vpts with transforms := vpts.transforms ++ [tr] }

/-- Model of `vp_cmdline_rekey_verify`: reuse the open transform set; otherwise
materialize one from the pending rekey key (flushing the — empty — old
context first); fail when neither exists. -/
def vp_cmdline_rekey_verify (st : VPCmdlineState) : Option VPCmdlineState :=
  match st.vpts with
  | some _ => some st
  | none =>
      match st.key with
      | none => none
      | some k =>
          let st1 := vp_cmdline_parse_rekey_finish st
          some { st1 with vpts := some (value_pairs_transform_set_new k) }

/-- Model of `atoi`: optional sign, leading digit run, 0 otherwise. -/
def atoiModel (s : String) : Int :=
  let cs := s.data
  match cs with
  | '-' :: rest => -(String.mk (rest.takeWhile Char.isDigit)).toNat!
  | _ => (String.mk (cs.takeWhile Char.isDigit)).toNat!

/-- Model of `vp_cmdline_parse_rekey_shift`: needs an open rekey context; appends a
shift step (`value_pairs_new_transform_shift(atoi(value))`, a clamped byte
drop per the spec of `vptransform.c`). -/
def vp_cmdline_parse_rekey_shift (st : VPCmdlineState) (value : String) :
    Option VPCmdlineState :=
  (vp_cmdline_rekey_verify st).map fun st1 =>
    { st1 with
      vpts := st1.vpts.map fun vpts =>
        value_pairs_transform_set_add_func vpts (.shift (atoiModel value).toNat) }

/-- Model of `vp_cmdline_parse_rekey_add_prefix`: needs an open rekey context;
appends an add-prefix step. -/
def vp_cmdline_parse_rekey_addPrefix (st : VPCmdlineState) (value : String) :
    Option VPCmdlineState :=
  (vp_cmdline_rekey_verify st).map fun st1 =>
    { st1 with
      vpts := st1.vpts.map fun vpts =>
        value_pairs_transform_set_add_func vpts (.addPrefix value) }

/-- Model of `vp_cmdline_parse_rekey_replace_prefix`: needs an open rekey context;
an argument without `=` is an error; otherwise appends a replace-prefix
step split at the first `=`. -/
def vp_cmdline_parse_rekey_replacePrefix (st : VPCmdlineState) (value : String) :
    Option VPCmdlineState :=
  match vp_cmdline_rekey_verify st with
  | none => none
  | some st1 =>
      if !value.data.contains '=' then none
      else
        let kv := g_strsplit_eq2 value
        some { st1 with
          vpts := st1.vpts.map fun vpts =>
            value_pairs_transform_set_add_func vpts (.replacePrefix kv.1 kv.2) }

/-- Model of `vp_cmdline_parse_pair_or_key`: a positional argument is a pair when it
contains `=`, an include key otherwise. -/
def vp_cmdline_parse_pair_or_key (st : VPCmdlineState) (value : String) :
    Option VPCmdlineState :=
  if value.data.contains '=' then vp_cmdline_parse_pair st value
  else some (vp_cmdline_parse_key st value)

/-- Dispatch of one recognized argument to its callback. -/
def vp_cmdline_step (st : VPCmdlineState) : VPCmdArg → Option VPCmdlineState
  | .scope v => vp_cmdline_parse_scope st v
  | .exclude v => some (vp_cmdline_parse_exclude st v)
  | .key v => some (vp_cmdline_parse_key st v)
  | .rekey v => some (vp_cmdline_start_key st v)
  | .pair v => vp_cmdline_parse_pair st v
  | .shiftOpt v => vp_cmdline_parse_rekey_shift st v
  | .addPrefixOpt v => vp_cmdline_parse_rekey_addPrefix st v
  | .replacePrefixOpt v => vp_cmdline_parse_rekey_replacePrefix st v
  | .positional v => vp_cmdline_parse_pair_or_key st v

/-- Run the callbacks over the argument list, stopping at the first
failure, as `g_option_context_parse` does. -/
def vp_cmdline_run (st : VPCmdlineState) (args : List VPCmdArg) :
    Option VPCmdlineState :=
  args.foldlM vp_cmdline_step st

/-- The initial builder state of `value_pairs_new_from_cmdline`. -/
def vp_cmdline_init : VPCmdlineState :=
  { vp := value_pairs_new, vpts := none, key := none }

/-- Model of `value_pairs_new_from_cmdline`: build from a fresh ValuePairs; on
parse failure the partially built object is destroyed and NULL (`none`)
is returned, otherwise the final rekey context is flushed and the object
returned. -/
def value_pairs_new_from_cmdline (args : List VPCmdArg) : Option ValuePairs :=
  match vp_cmdline_run vp_cmdline_init args with
  | some st => some (vp_cmdline_parse_rekey_finish st).vp
  | none => none


/-! ## Concrete instances used by witnesses and counterexamples -/

/-- Empty built-in tables. -/
def tablesEmpty : VPTables := ⟨[], [], [], []⟩

/-- A message with no payload and empty collaborator renderings. -/
def msgEmpty : LogMessage := ⟨[], fun _ => "", fun _ => ""⟩

/-- A message whose payload is the single non-SDATA pair `foo = bar`. -/
def msgFooBar : LogMessage := ⟨[⟨0, "foo", "bar", false⟩], fun _ => "", fun _ => ""⟩

/-- A message whose payload is the single non-SDATA pair `a.b = v`. -/
def msgAB : LogMessage := ⟨[⟨0, "a.b", "v", false⟩], fun _ => "", fun _ => ""⟩

/-- A configuration with the single include pattern `foo*`. -/
def vpFooStar : ValuePairs := ⟨[⟨"foo*", true⟩], [], [], 0⟩

/-- A configuration with only the `nv-pairs` scope bit. -/
def vpNvScope : ValuePairs := ⟨[], [], [], VPS_NV_PAIRS⟩

/-- A template rendering the fixed string `v1`. -/
def tmplV1 : LogTemplate := ⟨TypeHint.thString, fun _ => "v1"⟩

/-- A template rendering the fixed string `v2`. -/
def tmplV2 : LogTemplate := ⟨TypeHint.thString, fun _ => "v2"⟩

/-- A configuration holding two explicit pairs under the same name `k`
(`v1` first, `v2` second). -/
def vpDupPairs : ValuePairs := ⟨[], [⟨"k", tmplV1⟩, ⟨"k", tmplV2⟩], [], 0⟩

/-- A configuration holding the single explicit pair `k = v1`. -/
def vpOnePair : ValuePairs := ⟨[], [⟨"k", tmplV1⟩], [], 0⟩

/-- A process-value callback that always signals failure. -/
def pvAlwaysFail : String → Option String → TypeHint → String → Bool :=
  fun _ _ _ _ => true



/-- The bracket automaton used to state walker balance: `obj_start` pushes
its `(key, prefix)`, `obj_end` pops exactly a matching top, values leave
the state alone; `none` signals an unbalanced trace.  A trace accepted from
the empty state back to the empty state therefore has equal `obj_start` /
`obj_end` multisets, and every `obj_end` closes the most recently opened
frame — after all events of that frame's descendants. -/
def runWalkAuto : List (Option String × Option String) → List WEvent →
    Option (List (Option String × Option String))
  | st, [] => some st
  | st, WEvent.objStart k p _ :: es => runWalkAuto ((k, p) :: st) es
  | st, WEvent.objEnd k p _ :: es =>
      match st with
      | [] => none
      | top :: st2 => if top = (k, p) then runWalkAuto st2 es else none
  | st, WEvent.procValue _ _ _ _ :: es => runWalkAuto st es

/-- The automaton image of a walker stack. -/
def walkAutoStack (stack : List VpWalkFrame) : List (Option String × Option String) :=
  stack.map fun f => (some f.key, some f.pfx)

/-- Is the event a container close? -/
def wevent_isObjEnd : WEvent → Bool
  | WEvent.objEnd _ _ _ => true
  | _ => false

/-! ## Spec-side formulas (written from the claims, for refinement proofs) -/

/-- Spec formula: "the message NV-pair phase runs iff at least one of the
scope bits NV_PAIRS, DOT_NV_PAIRS, SDATA, RFC5424 is set or the pattern
list is non-empty" (each bit tested on its own). -/
def spec_nv_phase_runs (vp : ValuePairs) : Bool :=
  (vp.scopes &&& VPS_NV_PAIRS != 0) || (vp.scopes &&& VPS_DOT_NV_PAIRS != 0) ||
  (vp.scopes &&& VPS_SDATA != 0) || (vp.scopes &&& VPS_RFC5424 != 0) ||
  !vp.patterns.isEmpty

/-- Spec formula: "the name starts with a dot". -/
def spec_starts_with_dot (s : String) : Bool :=
  match s.data with
  | [] => false
  | c :: _ => c == '.'

/-- Spec formula for the seed inclusion of an enumerated NV pair:
"(name starts with a dot and DOT_NV_PAIRS) or (name does not start with a
dot and NV_PAIRS) or (the handle is SDATA and (SDATA or RFC5424))". -/
def spec_nv_seed (vp : ValuePairs) (e : NVEntry) : Bool :=
  (spec_starts_with_dot e.name && (vp.scopes &&& VPS_DOT_NV_PAIRS != 0)) ||
  (!spec_starts_with_dot e.name && (vp.scopes &&& VPS_NV_PAIRS != 0)) ||
  (e.sdata && ((vp.scopes &&& VPS_SDATA != 0) || (vp.scopes &&& VPS_RFC5424 != 0)))

/-! ## Helper lemmas -/

theorem strcmpList_eq_iff : ∀ as bs : List Char, strcmpList as bs = .eq ↔ as = bs := by
  intro as
  induction as with
  | nil => intro bs; cases bs <;> simp [strcmpList]
  | cons a as ih =>
      intro bs
      cases bs with
      | nil => simp [strcmpList]
      | cons b bs =>
          by_cases hab : a = b
          · simp [strcmpList, hab, ih bs]
          · simp only [strcmpList, if_neg hab]
            constructor
            · intro h
              by_cases hlt : a < b <;> simp [hlt] at h
            · intro h
              exact absurd (List.cons.injEq .. ▸ h).1 hab

theorem strcmp_eq_iff (a b : String) : strcmp a b = .eq ↔ a = b := by
  unfold strcmp
  rw [strcmpList_eq_iff]
  constructor
  · intro h; exact congrArg String.mk h
  · intro h; rw [h]

theorem vp_walk_cmp_eq_iff (a b : String) : vp_walk_cmp a b = .eq ↔ a = b := by
  unfold vp_walk_cmp
  rw [strcmp_eq_iff]
  exact eq_comm

theorem treeLookup_treeInsert_self (cmp : String → String → Ordering) (k : String)
    (hrefl : cmp k k = .eq) (v : SBTHGString) :
    ∀ t : VPTree, treeLookup cmp k (treeInsert cmp k v t) = some v := by
  intro t
  induction t with
  | nil => simp [treeInsert, treeLookup, hrefl]
  | cons kv t ih =>
      obtain ⟨k2, v2⟩ := kv
      unfold treeInsert
      cases h : cmp k k2 with
      | lt => simp [treeLookup, hrefl]
      | eq => simp [treeLookup, hrefl]
      | gt =>
          have hne : ¬(cmp k k2 = .eq) := by simp [h]
          simp [treeLookup, hne, ih]

theorem treeLookup_treeInsert_ne (cmp : String → String → Ordering)
    (hcmp : ∀ a b, cmp a b = .eq ↔ a = b) (k1 k2 : String) (hne : k1 ≠ k2)
    (v : SBTHGString) :
    ∀ t : VPTree, treeLookup cmp k1 (treeInsert cmp k2 v t) = treeLookup cmp k1 t := by
  intro t
  have h12 : ¬(cmp k1 k2 = .eq) := by rw [hcmp]; exact hne
  induction t with
  | nil => simp [treeInsert, treeLookup, h12]
  | cons kv t ih =>
      obtain ⟨k3, v3⟩ := kv
      unfold treeInsert
      cases h : cmp k2 k3 with
      | lt => simp [treeLookup, h12]
      | eq =>
          have hk23 : k2 = k3 := (hcmp k2 k3).mp h
          have h13 : ¬(cmp k1 k3 = .eq) := by rw [hcmp]; rw [← hk23]; exact hne
          simp [treeLookup, h12, h13]
      | gt =>
          by_cases h13 : cmp k1 k3 = .eq
          · simp [treeLookup, h13]
          · simp [treeLookup, h13, ih]

theorem mem_treeInsert (cmp : String → String → Ordering) (k : String)
    (v : SBTHGString) (kv : String × SBTHGString) :
    ∀ t : VPTree, kv ∈ treeInsert cmp k v t → kv = (k, v) ∨ kv ∈ t := by
  intro t
  induction t with
  | nil => simp [treeInsert]
  | cons kv2 t ih =>
      obtain ⟨k2, v2⟩ := kv2
      unfold treeInsert
      cases h : cmp k k2 with
      | lt => intro h2; simpa using h2
      | eq =>
          intro h2
          rcases List.mem_cons.mp h2 with h3 | h3
          · exact Or.inl h3
          · exact Or.inr (List.mem_cons_of_mem _ h3)
      | gt =>
          intro h2
          rcases List.mem_cons.mp h2 with h3 | h3
          · exact Or.inr (h3 ▸ List.mem_cons_self _ _)
          · rcases ih h3 with h4 | h4
            · exact Or.inl h4
            · exact Or.inr (List.mem_cons_of_mem _ h4)

theorem foldl_preserve {α β : Type} (P : β → Prop) (step : β → α → β)
    (h : ∀ b a, P b → P (step b a)) :
    ∀ (l : List α) (b : β), P b → P (l.foldl step b) := by
  intro l
  induction l with
  | nil => intro b hb; exact hb
  | cons a l ih => intro b hb; exact ih _ (h b a hb)

/-! ## C7 — the walker's key tokenizer -/

/-- C7: the walker's tokenizer realises the enterprise-id grammar on the
normative examples: `foo@1.2.3.bar` → `[foo@1.2.3, bar]`, `foo@1.bar` →
`[foo@1, bar]`, `foo.bar` → `[foo, bar]`, `a.b.c` → `[a, b, c]`. -/
theorem c7_walker_tokenizer_enterprise_id :
    vp_walker_split_name_to_tokens "foo@1.2.3.bar" = ["foo@1.2.3", "bar"] ∧
    vp_walker_split_name_to_tokens "foo@1.bar" = ["foo@1", "bar"] ∧
    vp_walker_split_name_to_tokens "foo.bar" = ["foo", "bar"] ∧
    vp_walker_split_name_to_tokens "a.b.c" = ["a", "b", "c"] := by
  refine ⟨?_, ?_, ?_, ?_⟩ <;> rfl

/-! ## C3, C5 — glob-list evaluation -/

theorem vp_patterns_eval_nil (name : String) (seed : Bool) :
    vp_patterns_eval [] name seed = seed := rfl

theorem vp_patterns_eval_cons (p : VPPatternSpec) (ps : List VPPatternSpec)
    (name : String) (seed : Bool) :
    vp_patterns_eval (p :: ps) name seed =
      vp_patterns_eval ps name (if vp_pattern_spec_eval p name then p.inc else seed) := rfl

theorem getLast?_cons {α : Type} (a : α) (l : List α) :
    (a :: l).getLast? = some (l.getLast?.getD a) := by
  cases l with
  | nil => rfl
  | cons b l =>
      rw [List.getLast?_cons_cons]
      cases h : (b :: l).getLast? with
      | none => exact absurd h (by simp)
      | some c => rfl

theorem vp_patterns_eval_last_match :
    ∀ (patterns : List VPPatternSpec) (name : String) (seed : Bool),
      vp_patterns_eval patterns name seed =
        (((patterns.filter fun p => vp_pattern_spec_eval p name).getLast?).map
          VPPatternSpec.inc).getD seed := by
  intro patterns
  induction patterns with
  | nil => intro name seed; rfl
  | cons p ps ih =>
      intro name seed
      rw [vp_patterns_eval_cons]
      by_cases hm : vp_pattern_spec_eval p name
      · rw [if_pos hm, ih, List.filter_cons_of_pos (by simpa using hm), getLast?_cons]
        cases h : (ps.filter fun q => vp_pattern_spec_eval q name).getLast? with
        | none => simp [h]
        | some q => simp [h]
      · rw [if_neg hm, ih,
          List.filter_cons_of_neg (by simpa using hm)]

/-- C3: glob-list evaluation is last-match-wins — the pattern loop
(`vp_find_in_set`, and the identical loop of `vp_msg_nvpairs_foreach`)
returns the include flag of the last pattern matching the name, and the
seed when no pattern matches. -/
theorem c3_glob_last_match_wins :
    (∀ (vp : ValuePairs) (name : String) (exclude : Bool),
      vp_find_in_set vp name exclude = vp_patterns_eval vp.patterns name exclude) ∧
    (∀ (patterns : List VPPatternSpec) (name : String) (seed : Bool),
      vp_patterns_eval patterns name seed =
        (((patterns.filter fun p => vp_pattern_spec_eval p name).getLast?).map
          VPPatternSpec.inc).getD seed) := by
  exact ⟨fun _ _ _ => rfl, vp_patterns_eval_last_match⟩

theorem vp_patterns_eval_no_match :
    ∀ (patterns : List VPPatternSpec) (name : String) (seed : Bool),
      (∀ p ∈ patterns, vp_pattern_spec_eval p name = false) →
      vp_patterns_eval patterns name seed = seed := by
  intro patterns
  induction patterns with
  | nil => intro name seed _; rfl
  | cons p ps ih =>
      intro name seed h
      rw [vp_patterns_eval_cons, if_neg (by simp [h p (by simp)])]
      exact ih name seed fun q hq => h q (List.mem_cons_of_mem _ hq)

theorem vp_patterns_eval_true_source :
    ∀ (patterns : List VPPatternSpec) (name : String) (seed : Bool),
      vp_patterns_eval patterns name seed = true →
      seed = true ∨ ∃ p ∈ patterns, vp_pattern_spec_eval p name = true ∧ p.inc = true := by
  intro patterns
  induction patterns with
  | nil => intro name seed h; exact Or.inl h
  | cons p ps ih =>
      intro name seed h
      rw [vp_patterns_eval_cons] at h
      rcases ih name _ h with h2 | h2
      · by_cases hm : vp_pattern_spec_eval p name
        · rw [if_pos hm] at h2
          exact Or.inr ⟨p, by simp, by simpa using hm, h2⟩
        · rw [if_neg hm] at h2
          exact Or.inl h2
      · obtain ⟨q, hq, hq2⟩ := h2
        exact Or.inr ⟨q, List.mem_cons_of_mem _ hq, hq2⟩

/-- C5: the seed passed to pattern evaluation while merging built-in sets
is asymmetric.  `vp_merge_set` (the RFC3164 / RFC5424 / selected-macros /
all-macros phases) evaluates with seed `true`: a name no pattern matches is
included, so patterns can only exclude; `vp_merge_macros` (the merge done
solely because the pattern list is non-empty) evaluates with seed `false`:
a name is included only if some matching pattern includes it. -/
theorem c5_merge_seed_asymmetry :
    (∀ (vp : ValuePairs) (msg : LogMessage) (cmp : String → String → Ordering)
        (set : List ValuePairSpec) (dest : VPTree),
      vp_merge_set vp msg cmp set dest = vp_merge_other_set vp msg cmp set dest true) ∧
    (∀ (tables : VPTables) (vp : ValuePairs) (msg : LogMessage)
        (cmp : String → String → Ordering) (dest : VPTree),
      vp_merge_macros tables vp msg cmp dest =
        vp_merge_other_set vp msg cmp tables.all_macros dest false) ∧
    (∀ (vp : ValuePairs) (name : String),
      (∀ p ∈ vp.patterns, vp_pattern_spec_eval p name = false) →
      vp_find_in_set vp name true = true ∧ vp_find_in_set vp name false = false) ∧
    (∀ (vp : ValuePairs) (name : String),
      vp_find_in_set vp name false = true →
      ∃ p ∈ vp.patterns, vp_pattern_spec_eval p name = true ∧ p.inc = true) := by
  refine ⟨fun _ _ _ _ _ => rfl, fun _ _ _ _ _ => rfl, ?_, ?_⟩
  · intro vp name h
    exact ⟨vp_patterns_eval_no_match _ _ _ h, vp_patterns_eval_no_match _ _ _ h⟩
  · intro vp name h
    rcases vp_patterns_eval_true_source _ _ _ h with h2 | h2
    · exact absurd h2 (by simp)
    · exact h2

/-- Witness for C5 at concrete inputs: with the single pattern `foo*`
(include), the name `bar` matches no pattern, so seed `true` keeps it and
seed `false` drops it; and the name `foox` is included under seed `false`
only through a matching include pattern. -/
theorem c5_merge_seed_asymmetry_witness :
    ((∀ p ∈ vpFooStar.patterns, vp_pattern_spec_eval p "bar" = false) ∧
      vp_find_in_set vpFooStar "bar" true = true ∧
      vp_find_in_set vpFooStar "bar" false = false) ∧
    (vp_find_in_set vpFooStar "foox" false = true ∧
      ∃ p ∈ vpFooStar.patterns,
        vp_pattern_spec_eval p "foox" = true ∧ p.inc = true) :=
  ⟨⟨by decide, c5_merge_seed_asymmetry.2.2.1 vpFooStar "bar" (by decide)⟩,
   ⟨by decide, c5_merge_seed_asymmetry.2.2.2 vpFooStar "foox" (by decide)⟩⟩

/-! ## C4 — NV-pair phase gating and seed -/

theorem lor_eq_zero_iff (x y : Nat) : x ||| y = 0 ↔ x = 0 ∧ y = 0 := by
  constructor
  · intro h
    have hb : ∀ i, x.testBit i = false ∧ y.testBit i = false := by
      intro i
      have h3 : Nat.testBit (x ||| y) i = Nat.testBit 0 i := by rw [h]
      simpa [Nat.testBit_or, Bool.or_eq_false_iff] using h3
    constructor <;> apply Nat.eq_of_testBit_eq <;> intro i
    · simp [(hb i).1]
    · simp [(hb i).2]
  · rintro ⟨rfl, rfl⟩
    rfl

theorem land_mask75_split (n : Nat) :
    (n &&& 75 != 0) =
      ((n &&& 1 != 0) || (n &&& 2 != 0) || (n &&& 64 != 0) || (n &&& 8 != 0)) := by
  have h75 : (75 : Nat) = 1 ||| (2 ||| (64 ||| 8)) := by decide
  rw [Bool.eq_iff_iff]
  simp only [bne_iff_ne, ne_eq, Bool.or_eq_true]
  rw [h75, Nat.and_or_distrib_left, Nat.and_or_distrib_left, Nat.and_or_distrib_left,
    lor_eq_zero_iff, lor_eq_zero_iff, lor_eq_zero_iff]
  tauto

theorem land_mask72_split (n : Nat) :
    (n &&& 72 != 0) = ((n &&& 64 != 0) || (n &&& 8 != 0)) := by
  have h72 : (72 : Nat) = 64 ||| 8 := by decide
  rw [Bool.eq_iff_iff]
  simp only [bne_iff_ne, ne_eq, Bool.or_eq_true]
  rw [h72, Nat.and_or_distrib_left, lor_eq_zero_iff]
  tauto

/-- C4: the message NV-pair phase guard of `value_pairs_foreach_sorted`
holds exactly when one of NV_PAIRS, DOT_NV_PAIRS, SDATA, RFC5424 is set or
the pattern list is non-empty; and the seed inclusion computed by
`vp_msg_nvpairs_foreach` for each enumerated pair equals the spec's
disjunction over the name's leading dot, the NV_PAIRS bit, and the SDATA
classification. -/
theorem c4_nv_phase_guard_and_seed (vp : ValuePairs) (e : NVEntry) :
    vp_nv_phase_guard vp = spec_nv_phase_runs vp ∧
    vp_msg_nv_inc vp e = spec_nv_seed vp e := by
  constructor
  · unfold vp_nv_phase_guard spec_nv_phase_runs
    unfold VPS_NV_PAIRS VPS_DOT_NV_PAIRS VPS_SDATA VPS_RFC5424
    have h75 : (1 + 2 + 64 + 8 : Nat) = 75 := by norm_num
    rw [h75, land_mask75_split]
    have hlen : (vp.patterns.length != 0) = !vp.patterns.isEmpty := by
      cases vp.patterns <;> simp
    rw [hlen]
  · unfold vp_msg_nv_inc spec_nv_seed spec_starts_with_dot
    unfold VPS_SDATA VPS_RFC5424
    have h72 : (64 + 8 : Nat) = 72 := by norm_num
    rw [h72, land_mask72_split]
    have hz : (Char.ofNat 0 == '.') = false := by decide
    cases hd : e.name.data with
    | nil => simp [hd, hz]
    | cons c cs => simp [hd, bne]

/-! ## C2 — no empty values in the output map -/

theorem treeInsert_preserves_pos (cmp : String → String → Ordering) (k : String)
    (v : SBTHGString) (hv : 0 < v.value.length) (t : VPTree)
    (ht : ∀ kv ∈ t, 0 < (kv.2).value.length) :
    ∀ kv ∈ treeInsert cmp k v t, 0 < (kv.2).value.length := by
  intro kv hkv
  rcases mem_treeInsert cmp k v kv t hkv with h | h
  · rw [h]; exact hv
  · exact ht kv h

theorem vp_msg_nvpairs_foreach_preserves_pos (vp : ValuePairs)
    (cmp : String → String → Ordering) (t : VPTree) (e : NVEntry)
    (ht : ∀ kv ∈ t, 0 < (kv.2).value.length) :
    ∀ kv ∈ vp_msg_nvpairs_foreach vp cmp t e, 0 < (kv.2).value.length := by
  unfold vp_msg_nvpairs_foreach
  by_cases h0 : e.value.length = 0
  · simpa [h0] using ht
  · rw [if_neg h0]
    by_cases hinc : vp_patterns_eval vp.patterns e.name (vp_msg_nv_inc vp e)
    · rw [if_pos hinc]
      exact treeInsert_preserves_pos cmp _ _ (Nat.pos_of_ne_zero h0) t ht
    · simpa [hinc] using ht

theorem vp_merge_other_set_preserves_pos (vp : ValuePairs) (msg : LogMessage)
    (cmp : String → String → Ordering) (set : List ValuePairSpec) (t : VPTree)
    (exclude : Bool) (ht : ∀ kv ∈ t, 0 < (kv.2).value.length) :
    ∀ kv ∈ vp_merge_other_set vp msg cmp set t exclude, 0 < (kv.2).value.length := by
  unfold vp_merge_other_set
  refine foldl_preserve (fun tr => ∀ kv ∈ tr, 0 < (kv.2).value.length) _ ?_ set t ht
  intro tr s htr
  by_cases hf : vp_find_in_set vp s.name exclude
  · rw [if_pos hf]
    by_cases h0 : (vp_spec_render msg s).length = 0
    · simpa [h0] using htr
    · rw [if_neg h0]
      exact treeInsert_preserves_pos cmp _ _ (Nat.pos_of_ne_zero h0) tr htr
  · simpa [hf] using htr

theorem vp_pairs_foreach_preserves_pos (vp : ValuePairs) (msg : LogMessage)
    (cmp : String → String → Ordering) (t : VPTree) (vpc : VPPairConf)
    (ht : ∀ kv ∈ t, 0 < (kv.2).value.length) :
    ∀ kv ∈ vp_pairs_foreach vp msg cmp t vpc, 0 < (kv.2).value.length := by
  unfold vp_pairs_foreach
  by_cases h0 : (vpc.template.render msg).length = 0
  · simpa [h0] using ht
  · rw [if_neg h0]
    exact treeInsert_preserves_pos cmp _ _ (Nat.pos_of_ne_zero h0) t ht

theorem ite_tree_pos (c : Prop) [Decidable c] (f : VPTree → VPTree) (t : VPTree)
    (ht : ∀ kv ∈ t, 0 < (kv.2).value.length)
    (hf : ∀ tr, (∀ kv ∈ tr, 0 < (kv.2).value.length) →
      ∀ kv ∈ f tr, 0 < (kv.2).value.length) :
    ∀ kv ∈ (if c then f t else t), 0 < (kv.2).value.length := by
  split
  · exact hf t ht
  · exact ht

theorem vp_build_base_pos (tables : VPTables) (vp : ValuePairs) (msg : LogMessage)
    (cmp : String → String → Ordering) :
    ∀ kv ∈ vp_build_base tables vp msg cmp, 0 < (kv.2).value.length := by
  have P0 : ∀ kv ∈ ([] : VPTree), 0 < (kv.2).value.length := by simp
  show ∀ kv ∈ (if vp.scopes &&& VPS_ALL_MACROS ≠ 0 then
      vp_merge_set vp msg cmp tables.all_macros _ else _), 0 < (kv.2).value.length
  refine ite_tree_pos _ _ _ ?_ fun tr htr =>
    vp_merge_other_set_preserves_pos vp msg cmp tables.all_macros tr true htr
  refine ite_tree_pos _ _ _ ?_ fun tr htr =>
    vp_merge_other_set_preserves_pos vp msg cmp tables.selected_macros tr true htr
  refine ite_tree_pos _ _ _ ?_ fun tr htr =>
    vp_merge_other_set_preserves_pos vp msg cmp tables.rfc5424 tr true htr
  refine ite_tree_pos _ _ _ ?_ fun tr htr =>
    vp_merge_other_set_preserves_pos vp msg cmp tables.rfc3164 tr true htr
  refine ite_tree_pos _ _ _ ?_ fun tr htr =>
    vp_merge_other_set_preserves_pos vp msg cmp tables.all_macros tr false htr
  refine ite_tree_pos _ (fun t => msg.payload.foldl (vp_msg_nvpairs_foreach vp cmp) t)
    [] P0 fun tr htr =>
    foldl_preserve (fun tr2 : VPTree => ∀ kv ∈ tr2, 0 < (kv.2).value.length)
      (vp_msg_nvpairs_foreach vp cmp)
      (fun tr2 e htr2 => vp_msg_nvpairs_foreach_preserves_pos vp cmp tr2 e htr2)
      msg.payload tr htr

/-- C2: every value in the final OutputMap has strictly positive length —
empty renderings are dropped by every build phase before insertion. -/
theorem c2_no_empty_values (tables : VPTables) (vp : ValuePairs) (msg : LogMessage)
    (cmp : String → String → Ordering) (k : String) (hv : SBTHGString)
    (h : (k, hv) ∈ vp_build_scope_set tables vp msg cmp) : 0 < hv.value.length := by
  unfold vp_build_scope_set at h
  have := foldl_preserve (fun tr : VPTree => ∀ kv ∈ tr, 0 < (kv.2).value.length)
    (vp_pairs_foreach vp msg cmp)
    (fun tr vpc htr => vp_pairs_foreach_preserves_pos vp msg cmp tr vpc htr)
    vp.vpairs _ (vp_build_base_pos tables vp msg cmp)
  exact this (k, hv) h

/-- Witness for C2: the NV pair `foo = bar` of the concrete message lands
in the output map and its value has positive length. -/
theorem c2_no_empty_values_witness :
    ("foo", (⟨TypeHint.thString, "bar"⟩ : SBTHGString)) ∈
      vp_build_scope_set tablesEmpty vpNvScope msgFooBar strcmp ∧
    0 < (⟨TypeHint.thString, "bar"⟩ : SBTHGString).value.length :=
  have h : vp_build_scope_set tablesEmpty vpNvScope msgFooBar strcmp =
      [("foo", ⟨TypeHint.thString, "bar"⟩)] := rfl
  ⟨h ▸ List.mem_singleton_self _,
   c2_no_empty_values tablesEmpty vpNvScope msgFooBar strcmp "foo" _
     (h ▸ List.mem_singleton_self _)⟩

/-! ## C1 — explicit pairs are evaluated last -/

theorem lookup_vp_pairs_fold_ne (vp : ValuePairs) (msg : LogMessage)
    (cmp : String → String → Ordering)
    (hcmp : ∀ a b, cmp a b = Ordering.eq ↔ a = b) (k : String) :
    ∀ l : List VPPairConf,
      (∀ q ∈ l, q.template.render msg ≠ "" → vp_transform_apply vp q.name ≠ k) →
      ∀ t : VPTree,
        treeLookup cmp k (l.foldl (vp_pairs_foreach vp msg cmp) t) =
          treeLookup cmp k t := by
  intro l
  induction l with
  | nil => intro _ t; rfl
  | cons q l ih =>
      intro h t
      rw [List.foldl_cons, ih (fun r hr => h r (List.mem_cons_of_mem _ hr))]
      unfold vp_pairs_foreach
      by_cases h0 : (q.template.render msg).length = 0
      · rw [if_pos h0]
      · rw [if_neg h0]
        have hq : q.template.render msg ≠ "" := by
          intro he; exact h0 (by rw [he]; rfl)
        exact treeLookup_treeInsert_ne cmp hcmp k _
          (Ne.symm (h q (List.mem_cons_self _ _) hq)) _ t

/-- C1 (amended): for every configured explicit pair whose rendering is
non-empty and whose transformed key no *later* explicit pair with a
non-empty rendering also produces, the final OutputMap maps the
transformed name to the pair's rendered value with the template's type
hint — overriding whatever the six earlier phases put there.  (The
amendment is forced by `c1_explicit_pairs_counterexample`: within the
explicit phase itself the last pair of a transformed key wins.) -/
theorem c1_explicit_pairs_override (tables : VPTables) (vp : ValuePairs)
    (msg : LogMessage) (cmp : String → String → Ordering)
    (hcmp : ∀ a b, cmp a b = Ordering.eq ↔ a = b)
    (l1 l2 : List VPPairConf) (p : VPPairConf)
    (hsplit : vp.vpairs = l1 ++ p :: l2)
    (hne : p.template.render msg ≠ "")
    (hlater : ∀ q ∈ l2, q.template.render msg ≠ "" →
      vp_transform_apply vp q.name ≠ vp_transform_apply vp p.name) :
    treeLookup cmp (vp_transform_apply vp p.name)
        (vp_build_scope_set tables vp msg cmp) =
      some ⟨p.template.type_hint, p.template.render msg⟩ := by
  unfold vp_build_scope_set
  rw [hsplit, List.foldl_append, List.foldl_cons,
    lookup_vp_pairs_fold_ne vp msg cmp hcmp _ l2 hlater]
  unfold vp_pairs_foreach
  have h0 : ¬((p.template.render msg).length = 0) := by
    intro h
    exact hne (by cases hp : p.template.render msg with
      | mk cs => cases cs with
        | nil => rfl
        | cons c cs2 => rw [hp] at h; simp [String.length] at h)
  rw [if_neg h0]
  exact treeLookup_treeInsert_self cmp _ ((hcmp _ _).mpr rfl) _ _

/-- Counterexample to C1 as stated: with the two explicit pairs
`("k", v1)` and `("k", v2)` (both rendering non-empty), the final map
holds `v2` at key `k`, not the first pair's rendering `v1` — so "for every
configured explicit pair ... the final OutputMap maps transform(name) to
the rendered template value" fails for the first pair. -/
theorem c1_explicit_pairs_counterexample :
    tmplV1.render msgEmpty ≠ "" ∧
    treeLookup strcmp (vp_transform_apply vpDupPairs "k")
        (vp_build_scope_set tablesEmpty vpDupPairs msgEmpty strcmp) =
      some ⟨TypeHint.thString, "v2"⟩ ∧
    (some (⟨TypeHint.thString, "v2"⟩ : SBTHGString) ≠
      some (⟨tmplV1.type_hint, tmplV1.render msgEmpty⟩ : SBTHGString)) := by
  refine ⟨by decide, rfl, by decide⟩

/-- Witness for C1: a single explicit pair `k = v1` on an otherwise empty
configuration ends up in the map under its own key. -/
theorem c1_explicit_pairs_override_witness :
    tmplV1.render msgEmpty ≠ "" ∧
    treeLookup strcmp (vp_transform_apply vpOnePair "k")
        (vp_build_scope_set tablesEmpty vpOnePair msgEmpty strcmp) =
      some ⟨tmplV1.type_hint, tmplV1.render msgEmpty⟩ :=
  ⟨by decide,
   c1_explicit_pairs_override tablesEmpty vpOnePair msgEmpty strcmp strcmp_eq_iff
     [] [] ⟨"k", tmplV1⟩ rfl (by decide) (by simp)⟩

/-! ## C10 — container retention is a byte-level prefix test -/

/-- C10: during unwinding, the stack (with its top frame) survives intact
— no `obj_end` emitted — exactly when it is empty or the top frame's
prefix is a byte prefix of the next key (the `strncmp` over `prefix_len`
bytes), with no regard for `.` token boundaries.  Concretely, the key `ab`
retains an open container with prefix `a`, which then becomes the parent
of the value event emitted for `ab`. -/
theorem c10_unwind_byte_prefix_retention :
    (∀ (stack : List VpWalkFrame) (name : String),
      ((vp_walker_stack_unwind_containers_until stack (some name)).1 = [] ∧
        (vp_walker_stack_unwind_containers_until stack (some name)).2 = stack) ↔
      (stack = [] ∨ ∃ f rest, stack = f :: rest ∧ f.pfx.data.isPrefixOf name.data)) ∧
    vp_walker_stack_unwind_containers_until [⟨"a", "a"⟩] (some "ab") =
      ([], [⟨"a", "a"⟩]) ∧
    value_pairs_walker pvAlwaysFail [⟨"a", "a"⟩] "ab" TypeHint.thString "x" =
      ([WEvent.procValue "ab" (some "a") TypeHint.thString "x"], [⟨"a", "a"⟩], true) := by
  refine ⟨?_, rfl, rfl⟩
  intro stack name
  cases stack with
  | nil => simp [vp_walker_stack_unwind_containers_until]
  | cons t rest =>
      unfold vp_walker_stack_unwind_containers_until
      dsimp only
      by_cases hp : t.pfx.data.isPrefixOf name.data
      · rw [if_pos hp]
        exact ⟨fun _ => Or.inr ⟨t, rest, rfl, hp⟩, fun _ => ⟨rfl, rfl⟩⟩
      · rw [if_neg hp]
        constructor
        · intro h
          exact absurd h.1 (by simp)
        · intro h
          rcases h with h | ⟨f, rest2, heq, hpf⟩
          · exact absurd h (by simp)
          · injection heq with h1 h2
            subst h1
            exact absurd hpf hp

/-! ## C6 — walker balance -/

theorem runWalkAuto_append :
    ∀ (es1 es2 : List WEvent) (st : List (Option String × Option String)),
      runWalkAuto st (es1 ++ es2) =
        (runWalkAuto st es1).bind fun st2 => runWalkAuto st2 es2 := by
  intro es1
  induction es1 with
  | nil => intro es2 st; rfl
  | cons e es ih =>
      intro es2 st
      cases e with
      | objStart k p pp => exact ih es2 _
      | objEnd k p pp =>
          cases st with
          | nil => rfl
          | cons top st2 =>
              show (if top = (k, p) then runWalkAuto st2 (es ++ es2) else none) =
                (if top = (k, p) then runWalkAuto st2 es else none).bind
                  fun st3 => runWalkAuto st3 es2
              by_cases h : top = (k, p)
              · rw [if_pos h, if_pos h]; exact ih es2 st2
              · rw [if_neg h, if_neg h]; rfl
      | procValue k p h v => exact ih es2 _

theorem runWalkAuto_unwind (name : Option String) :
    ∀ (stack : List VpWalkFrame) (base : List (Option String × Option String)),
      runWalkAuto (walkAutoStack stack ++ base)
          (vp_walker_stack_unwind_containers_until stack name).1 =
        some (walkAutoStack (vp_walker_stack_unwind_containers_until stack name).2 ++ base) := by
  intro stack
  induction stack with
  | nil => intro base; rfl
  | cons t rest ih =>
      intro base
      unfold vp_walker_stack_unwind_containers_until
      by_cases hb : (match name with
          | some n => t.pfx.data.isPrefixOf n.data
          | none => false)
      · rw [if_pos hb]; rfl
      · rw [if_neg hb]
        dsimp only
        show (if ((some t.key, some t.pfx) : Option String × Option String) =
              (some t.key, some t.pfx) then
            runWalkAuto (walkAutoStack rest ++ base)
              (vp_walker_stack_unwind_containers_until rest name).1
          else none) = _
        rw [if_pos rfl]
        exact ih base

theorem runWalkAuto_start_go (tokens : List String) :
    ∀ (idxs : List Nat) (stack : List VpWalkFrame)
      (base : List (Option String × Option String)),
      runWalkAuto (walkAutoStack stack ++ base)
          (vp_walker_start_containers_go tokens idxs stack).1 =
        some (walkAutoStack (vp_walker_start_containers_go tokens idxs stack).2 ++ base) := by
  intro idxs
  induction idxs with
  | nil => intro stack base; rfl
  | cons i is ih =>
      intro stack base
      unfold vp_walker_start_containers_go
      exact ih (⟨tokens.getD i "", vp_walker_name_combine tokens i⟩ :: stack) base

theorem runWalkAuto_walker (pv : String → Option String → TypeHint → String → Bool)
    (stack : List VpWalkFrame) (n : String) (h : TypeHint) (v : String)
    (base : List (Option String × Option String)) :
    runWalkAuto (walkAutoStack stack ++ base) (value_pairs_walker pv stack n h v).1 =
      some (walkAutoStack (value_pairs_walker pv stack n h v).2.1 ++ base) := by
  unfold value_pairs_walker
  dsimp only
  unfold vp_walker_start_containers
  rw [runWalkAuto_append, runWalkAuto_append, runWalkAuto_unwind (some n) stack base]
  simp only [Option.some_bind]
  rw [runWalkAuto_start_go]
  simp only [Option.some_bind]
  rfl

theorem runWalkAuto_walk_go (pv : String → Option String → TypeHint → String → Bool) :
    ∀ (tree : VPTree) (stack : List VpWalkFrame)
      (base : List (Option String × Option String)),
      runWalkAuto (walkAutoStack stack ++ base) (value_pairs_walk_go pv stack tree).1 =
        some (walkAutoStack (value_pairs_walk_go pv stack tree).2.1 ++ base) := by
  intro tree
  induction tree with
  | nil => intro stack base; rfl
  | cons kv rest ih =>
      intro stack base
      obtain ⟨n, hv⟩ := kv
      unfold value_pairs_walk_go
      dsimp only
      by_cases hf : (value_pairs_walker pv stack n hv.type_hint hv.value).2.2
      · rw [if_pos hf]
        exact runWalkAuto_walker pv stack n hv.type_hint hv.value base
      · rw [if_neg hf]
        dsimp only
        rw [runWalkAuto_append, runWalkAuto_walker]
        simp only [Option.some_bind]
        exact ih _ base

theorem unwind_none_empty :
    ∀ stack : List VpWalkFrame,
      (vp_walker_stack_unwind_containers_until stack none).2 = [] := by
  intro stack
  induction stack with
  | nil => rfl
  | cons t rest ih =>
      unfold vp_walker_stack_unwind_containers_until
      exact ih

/-- C6: every `value_pairs_walk` trace is accepted by the bracket
automaton from the empty state back to the empty state — the `obj_start`
and `obj_end` multisets coincide, each `obj_end` closes the most recently
opened frame (hence after all of that frame's descendant events), and the
whole trace is bracketed by the outer `obj_start(null)` / `obj_end(null)`
pair. -/
theorem c6_walker_balance (tables : VPTables) (vp : ValuePairs) (msg : LogMessage)
    (pv : String → Option String → TypeHint → String → Bool) :
    runWalkAuto [] (value_pairs_walk tables vp msg pv).1 = some [] ∧
    ∃ mid, (value_pairs_walk tables vp msg pv).1 =
      WEvent.objStart none none none :: (mid ++ [WEvent.objEnd none none none]) := by
  constructor
  · unfold value_pairs_walk
    dsimp only
    show runWalkAuto [(none, none)] _ = some []
    rw [runWalkAuto_append, runWalkAuto_append]
    have h1 := runWalkAuto_walk_go pv (vp_build_scope_set tables vp msg vp_walk_cmp)
      [] [(none, none)]
    rw [show walkAutoStack [] ++ [((none : Option String), (none : Option String))] =
      [(none, none)] from rfl] at h1
    rw [h1]
    simp only [Option.some_bind]
    have h2 := runWalkAuto_unwind none
      (value_pairs_walk_go pv [] (vp_build_scope_set tables vp msg vp_walk_cmp)).2.1
      [(none, none)]
    rw [unwind_none_empty] at h2
    rw [show walkAutoStack [] ++ [((none : Option String), (none : Option String))] =
      [(none, none)] from rfl] at h2
    rw [h2]
    simp only [Option.some_bind]
    rfl
  · exact ⟨_, rfl⟩

/-! ## C8 — callback failure short-circuits -/

theorem g_tree_foreach_helper_short_circuit :
    ∀ (func : String → TypeHint → String → Bool) (t : VPTree),
      g_tree_foreach_helper func t =
        match t.findIdx? (fun kv => func kv.1 kv.2.type_hint kv.2.value) with
        | some i => (false, t.take (i + 1))
        | none => (true, t) := by
  intro func t
  induction t with
  | nil => rfl
  | cons kv rest ih =>
      unfold g_tree_foreach_helper
      rw [List.findIdx?_cons]
      by_cases hf : func kv.1 kv.2.type_hint kv.2.value
      · rw [if_pos hf, if_pos hf]
        rfl
      · rw [if_neg hf, if_neg hf, ih]
        simp only [List.findIdx?_succ]
        cases h2 : rest.findIdx? (fun kv => func kv.1 kv.2.type_hint kv.2.value) with
        | none => rfl
        | some i => rfl

theorem unwind_events_all_objEnd :
    ∀ (stack : List VpWalkFrame) (name : Option String),
      ((vp_walker_stack_unwind_containers_until stack name).1).all wevent_isObjEnd = true := by
  intro stack
  induction stack with
  | nil => intro name; rfl
  | cons t rest ih =>
      intro name
      unfold vp_walker_stack_unwind_containers_until
      by_cases hb : (match name with
          | some n => t.pfx.data.isPrefixOf n.data
          | none => false)
      · rw [if_pos hb]; rfl
      · rw [if_neg hb]
        dsimp only
        rw [List.all_cons]
        exact ih name

theorem value_pairs_walk_go_fail (pv : String → Option String → TypeHint → String → Bool) :
    ∀ (tree : VPTree) (stack : List VpWalkFrame),
      (value_pairs_walk_go pv stack tree).2.2 = false →
      ∃ pre k p h v,
        (value_pairs_walk_go pv stack tree).1 = pre ++ [WEvent.procValue k p h v] ∧
        pv k p h v = true := by
  intro tree
  induction tree with
  | nil =>
      intro stack hfail
      exact absurd hfail (by simp [value_pairs_walk_go])
  | cons kv rest ih =>
      intro stack hfail
      obtain ⟨n, hv⟩ := kv
      unfold value_pairs_walk_go at hfail ⊢
      dsimp only at hfail ⊢
      by_cases hf : (value_pairs_walker pv stack n hv.type_hint hv.value).2.2
      · rw [if_pos hf] at hfail ⊢
        refine ⟨(vp_walker_stack_unwind_containers_until stack (some n)).1 ++
            (vp_walker_start_containers
              (vp_walker_stack_unwind_containers_until stack (some n)).2
              (vp_walker_split_name_to_tokens n)).1,
          ((vp_walker_split_name_to_tokens n).getLast?).getD "",
          ((vp_walker_start_containers
              (vp_walker_stack_unwind_containers_until stack (some n)).2
              (vp_walker_split_name_to_tokens n)).2.head?).map (fun x => x.pfx),
          hv.type_hint, hv.value, ?_, ?_⟩
        · show (value_pairs_walker pv stack n hv.type_hint hv.value).1 = _
          unfold value_pairs_walker
          dsimp only
        · exact hf
      · rw [if_neg hf] at hfail ⊢
        dsimp only at hfail ⊢
        obtain ⟨pre, k, p, h, v, heq, hpv⟩ :=
          ih (value_pairs_walker pv stack n hv.type_hint hv.value).2.1 hfail
        refine ⟨(value_pairs_walker pv stack n hv.type_hint hv.value).1 ++ pre,
          k, p, h, v, ?_, hpv⟩
        rw [heq, List.append_assoc]

/-- C8 (amended): in the flat traversal the first callback failure stops
every further callback and forces a `false` result (the trace is exactly
the entries up to and including the first failing one); in the
hierarchical walk a `process_value` failure likewise stops every further
`obj_start` and `process_value`, but the walker still emits the pending
`obj_end` closings of the containers left open (and the outer bracket)
after the failing value event, and the walk returns `false`.  (The
amendment — obj_end events still follow a failure during the walk — is
forced by `c8_walk_counterexample`.) -/
theorem c8_failure_short_circuits :
    (∀ (func : String → TypeHint → String → Bool) (t : VPTree),
      g_tree_foreach_helper func t =
        match t.findIdx? (fun kv => func kv.1 kv.2.type_hint kv.2.value) with
        | some i => (false, t.take (i + 1))
        | none => (true, t)) ∧
    (∀ (tables : VPTables) (vp : ValuePairs) (msg : LogMessage)
        (pv : String → Option String → TypeHint → String → Bool),
      (value_pairs_walk tables vp msg pv).2 = false →
      ∃ pre k p h v post,
        (value_pairs_walk tables vp msg pv).1 =
          pre ++ WEvent.procValue k p h v :: post ∧
        pv k p h v = true ∧ post.all wevent_isObjEnd = true) := by
  refine ⟨g_tree_foreach_helper_short_circuit, ?_⟩
  intro tables vp msg pv hfail
  unfold value_pairs_walk at hfail ⊢
  dsimp only at hfail ⊢
  obtain ⟨pre, k, p, h, v, heq, hpv⟩ := value_pairs_walk_go_fail pv
    (vp_build_scope_set tables vp msg vp_walk_cmp) [] hfail
  refine ⟨WEvent.objStart none none none :: pre, k, p, h, v,
    (vp_walker_stack_unwind_containers_until
      (value_pairs_walk_go pv [] (vp_build_scope_set tables vp msg vp_walk_cmp)).2.1
      none).1 ++ [WEvent.objEnd none none none], ?_, hpv, ?_⟩
  · rw [heq]
    simp [List.append_assoc]
  · rw [List.all_append]
    rw [unwind_events_all_objEnd]
    rfl

/-- Counterexample to C8 as stated: walking the single pair `a.b = v` with
an always-failing `process_value`, the walk returns `false`, yet after the
failing `process_value` event the consumer's `obj_end` callback is still
invoked twice (closing the open container `a` and the outer bracket) — so
"once the accumulator becomes false no further consumer callbacks are
invoked" fails for the hierarchical walk. -/
theorem c8_walk_counterexample :
    (value_pairs_walk tablesEmpty vpNvScope msgAB pvAlwaysFail).2 = false ∧
    (value_pairs_walk tablesEmpty vpNvScope msgAB pvAlwaysFail).1 =
      [WEvent.objStart none none none,
       WEvent.objStart (some "a") (some "a") none,
       WEvent.procValue "b" (some "a") TypeHint.thString "v",
       WEvent.objEnd (some "a") (some "a") none,
       WEvent.objEnd none none none] ∧
    (value_pairs_walk tablesEmpty vpNvScope msgAB pvAlwaysFail).1.drop 3 ≠ [] := by
  have h : value_pairs_walk tablesEmpty vpNvScope msgAB pvAlwaysFail =
      ([WEvent.objStart none none none,
        WEvent.objStart (some "a") (some "a") none,
        WEvent.procValue "b" (some "a") TypeHint.thString "v",
        WEvent.objEnd (some "a") (some "a") none,
        WEvent.objEnd none none none], false) := rfl
  refine ⟨by rw [h], by rw [h], by rw [h]; decide⟩

/-- Witness for C8 at concrete inputs: the same failing walk satisfies the
amended decomposition. -/
theorem c8_failure_short_circuits_witness :
    (value_pairs_walk tablesEmpty vpNvScope msgAB pvAlwaysFail).2 = false ∧
    (∃ pre k p h v post,
      (value_pairs_walk tablesEmpty vpNvScope msgAB pvAlwaysFail).1 =
        pre ++ WEvent.procValue k p h v :: post ∧
      pvAlwaysFail k p h v = true ∧ post.all wevent_isObjEnd = true) :=
  ⟨rfl,
   c8_failure_short_circuits.2 tablesEmpty vpNvScope msgAB pvAlwaysFail rfl⟩

/-! ## C9 — builder atomicity and pair-syntax errors -/

theorem vp_cmdline_run_nil (st : VPCmdlineState) : vp_cmdline_run st [] = some st := rfl

theorem vp_cmdline_run_cons (st : VPCmdlineState) (a : VPCmdArg) (l : List VPCmdArg) :
    vp_cmdline_run st (a :: l) =
      (vp_cmdline_step st a).bind fun st2 => vp_cmdline_run st2 l := rfl

theorem vp_cmdline_run_append (l1 : List VPCmdArg) :
    ∀ (st : VPCmdlineState) (l2 : List VPCmdArg),
      vp_cmdline_run st (l1 ++ l2) =
        (vp_cmdline_run st l1).bind fun st2 => vp_cmdline_run st2 l2 := by
  induction l1 with
  | nil => intro st l2; rfl
  | cons a l ih =>
      intro st l2
      rw [List.cons_append, vp_cmdline_run_cons, vp_cmdline_run_cons]
      cases vp_cmdline_step st a with
      | none => rfl
      | some st2 => exact ih st2 l2

theorem vp_cmdline_parse_pair_no_eq (st : VPCmdlineState) (v : String)
    (h : v.data.contains '=' = false) : vp_cmdline_parse_pair st v = none := by
  unfold vp_cmdline_parse_pair
  rw [h]
  rfl

theorem vp_cmdline_parse_replacePrefix_no_eq (st : VPCmdlineState) (v : String)
    (h : v.data.contains '=' = false) :
    vp_cmdline_parse_rekey_replacePrefix st v = none := by
  unfold vp_cmdline_parse_rekey_replacePrefix
  cases vp_cmdline_rekey_verify st with
  | none => rfl
  | some st1 => rw [h]; rfl

theorem add_scope_fold_unknown :
    ∀ (names : List String) (vp : ValuePairs),
      (∃ s ∈ names, (value_pair_scope.find? fun e => e.1 == s).isNone) →
      names.foldlM value_pairs_add_scope vp = none := by
  intro names
  induction names with
  | nil => intro vp h; simp at h
  | cons n rest ih =>
      intro vp h
      rw [List.foldlM_cons]
      rcases h with ⟨s, hs, hfail⟩
      rcases List.mem_cons.mp hs with rfl | hs2
      · unfold value_pairs_add_scope
        cases hfind : value_pair_scope.find? fun e => e.1 == s with
        | none => rfl
        | some e => rw [hfind] at hfail; simp at hfail
      · unfold value_pairs_add_scope
        cases hfind : value_pair_scope.find? fun e => e.1 == n with
        | none => rfl
        | some e =>
            show Option.bind (some _) _ = none
            rw [Option.some_bind]
            exact ih _ ⟨s, hs2, hfail⟩

theorem vp_cmdline_parse_scope_unknown (st : VPCmdlineState) (v : String)
    (h : ∃ s ∈ g_strsplit_commas v, (value_pair_scope.find? fun e => e.1 == s).isNone) :
    vp_cmdline_parse_scope st v = none := by
  unfold vp_cmdline_parse_scope
  dsimp only
  rw [add_scope_fold_unknown _ _ h]
  rfl

theorem vp_cmdline_rekey_verify_closed (st : VPCmdlineState)
    (hv : st.vpts = none) (hk : st.key = none) : vp_cmdline_rekey_verify st = none := by
  unfold vp_cmdline_rekey_verify
  rw [hv, hk]

/-- C9: the builder surfaces an error — destroying the partial object and
returning NULL (`none`) — whenever a `--pair` argument lacks `=`, a
`--replace-prefix` argument lacks `=`, a scope argument names an unknown
scope, or a transform option (`--shift`, `--add-prefix`,
`--replace-prefix`) arrives with no open rekey context, wherever the bad
argument sits in the argument vector. -/
theorem c9_cmdline_builder_errors :
    (∀ (l1 l2 : List VPCmdArg) (v : String), v.data.contains '=' = false →
      value_pairs_new_from_cmdline (l1 ++ VPCmdArg.pair v :: l2) = none) ∧
    (∀ (l1 l2 : List VPCmdArg) (v : String), v.data.contains '=' = false →
      value_pairs_new_from_cmdline (l1 ++ VPCmdArg.replacePrefixOpt v :: l2) = none) ∧
    (∀ (l1 l2 : List VPCmdArg) (v : String),
      (∃ s ∈ g_strsplit_commas v, (value_pair_scope.find? fun e => e.1 == s).isNone) →
      value_pairs_new_from_cmdline (l1 ++ VPCmdArg.scope v :: l2) = none) ∧
    (∀ (l1 l2 : List VPCmdArg) (v : String) (a : VPCmdArg),
      (a = VPCmdArg.shiftOpt v ∨ a = VPCmdArg.addPrefixOpt v ∨
        a = VPCmdArg.replacePrefixOpt v) →
      (∀ st, vp_cmdline_run vp_cmdline_init l1 = some st →
        st.vpts = none ∧ st.key = none) →
      value_pairs_new_from_cmdline (l1 ++ a :: l2) = none) := by
  have habort : ∀ (l1 : List VPCmdArg) (a : VPCmdArg) (l2 : List VPCmdArg),
      (∀ st, vp_cmdline_run vp_cmdline_init l1 = some st →
        vp_cmdline_step st a = none) →
      value_pairs_new_from_cmdline (l1 ++ a :: l2) = none := by
    intro l1 a l2 hstep
    unfold value_pairs_new_from_cmdline
    rw [vp_cmdline_run_append]
    cases hrun : vp_cmdline_run vp_cmdline_init l1 with
    | none => rfl
    | some st =>
        rw [Option.some_bind, vp_cmdline_run_cons, hstep st hrun, Option.none_bind]
  refine ⟨?_, ?_, ?_, ?_⟩
  · intro l1 l2 v hv
    exact habort l1 _ l2 fun st _ => vp_cmdline_parse_pair_no_eq st v hv
  · intro l1 l2 v hv
    exact habort l1 _ l2 fun st _ => vp_cmdline_parse_replacePrefix_no_eq st v hv
  · intro l1 l2 v hv
    exact habort l1 _ l2 fun st _ => vp_cmdline_parse_scope_unknown st v hv
  · intro l1 l2 v a ha hctx
    refine habort l1 a l2 fun st hrun => ?_
    obtain ⟨hvpts, hkey⟩ := hctx st hrun
    rcases ha with rfl | rfl | rfl
    · show vp_cmdline_parse_rekey_shift st v = none
      unfold vp_cmdline_parse_rekey_shift
      rw [vp_cmdline_rekey_verify_closed st hvpts hkey]
      rfl
    · show vp_cmdline_parse_rekey_addPrefix st v = none
      unfold vp_cmdline_parse_rekey_addPrefix
      rw [vp_cmdline_rekey_verify_closed st hvpts hkey]
      rfl
    · show vp_cmdline_parse_rekey_replacePrefix st v = none
      unfold vp_cmdline_parse_rekey_replacePrefix
      rw [vp_cmdline_rekey_verify_closed st hvpts hkey]

/-- Witness for C9 at concrete argument vectors: a pair without `=`, a
replace-prefix without `=`, an unknown scope name, and a `--shift` with no
open rekey context each make the builder return NULL. -/
theorem c9_cmdline_builder_errors_witness :
    ("abc".data.contains '=' = false ∧
      value_pairs_new_from_cmdline [VPCmdArg.pair "abc"] = none) ∧
    value_pairs_new_from_cmdline [VPCmdArg.replacePrefixOpt "xy"] = none ∧
    value_pairs_new_from_cmdline [VPCmdArg.scope "bogus"] = none ∧
    value_pairs_new_from_cmdline [VPCmdArg.shiftOpt "4"] = none :=
  ⟨⟨by decide, c9_cmdline_builder_errors.1 [] [] "abc" (by decide)⟩,
   c9_cmdline_builder_errors.2.1 [] [] "xy" (by decide),
   c9_cmdline_builder_errors.2.2.1 [] [] "bogus" (by decide),
   c9_cmdline_builder_errors.2.2.2 [] [] "4" (VPCmdArg.shiftOpt "4") (Or.inl rfl)
     (fun st hst => by
        rw [vp_cmdline_run_nil] at hst
        injection hst with h
        rw [← h]
        exact ⟨rfl, rfl⟩)⟩
